import Mathlib

/-!
Verification of the gdsfactory/pp photonic-layout repository.

This file shallowly embeds the parts of the repository needed to settle the
frozen claims: the 180-degree-bend routing helper
(`gdsfactory/routing/get_routes_bend180.py`), the `triangle` primitive factory
(`gdsfactory/components/triangle.py`), the `coupler90` composite factory
(`gdsfactory/components/coupler90.py`), the `straight_heater_connector`
function (`pp/components/straight_heater.py`), and — modelled from the spec,
because their implementations live outside the provided sources — the
Component flattening operation (`absorb`), the factory cache behind the `cell`
decorator, and the manhattan router's failure semantics.

Coordinates, angles, widths and lengths are modelled with exact rationals; the
source uses Python floats, but no settled claim depends on float rounding.
-/

/-- Floating-point style modulus on rationals, `a - b * floor (a / b)`,
matching Python's `%` on floats for positive modulus `b`.  Used for the
`angle % 360` normalizations in the source. -/
def qmod (a b : ℚ) : ℚ := a - b * (⌊a / b⌋ : ℤ)

/-- Cosine of an angle given in degrees.  Exact on the discrete orientation
set 0/90/180/270 which, per the data model, is the set used in practice; the
table extends by (mathematically inexact) right-angle snapping elsewhere,
which no settled claim exercises. -/
def cosd (a : ℚ) : ℚ :=
  if qmod a 360 = 0 then 1
  else if qmod a 360 = 90 then 0
  else if qmod a 360 = 180 then -1
  else if qmod a 360 = 270 then 0
  else 1

/-- Sine of an angle given in degrees, on the same terms as `cosd`. -/
def sind (a : ℚ) : ℚ :=
  if qmod a 360 = 0 then 0
  else if qmod a 360 = 90 then 1
  else if qmod a 360 = 180 then 0
  else if qmod a 360 = 270 then -1
  else 0

/-- Rotation of a planar point about the origin by an angle in degrees. -/
def rotPt (a : ℚ) (p : ℚ × ℚ) : ℚ × ℚ :=
  (cosd a * p.1 - sind a * p.2, sind a * p.1 + cosd a * p.2)

/-- A fabrication layer: a pair of integers, as in the source. -/
abbrev GLayer := ℕ × ℕ

/-- A port: named anchor point with position, orientation (degrees), width,
layer and role, mirroring `Port` of `pp/port.py` / `gdsfactory/port.py`. -/
structure Port where
  name : String
  x : ℚ
  y : ℚ
  orientation : ℚ
  width : ℚ
  layer : GLayer
  port_type : String
deriving DecidableEq, Repr

/-- Midpoint of a port as a pair, mirroring `port.midpoint`. -/
def Port.midpoint (p : Port) : ℚ × ℚ := (p.x, p.y)

/-- Two orientations are antiparallel when they differ by 180 degrees modulo
360, the alignment produced by `ComponentReference.connect`. -/
def Antiparallel (a b : ℚ) : Prop := ∃ k : ℤ, a - b = 180 + 360 * k

section Routing

/-- The 180-degree bend component produced by `bend_factory(angle=180, ...)`
in `get_routes_bend180`: a two-port component with a fixed path length.
Modelled from the spec: the bend factories themselves
(`gdsfactory/components/bend_euler.py`) are outside the provided sources. -/
structure BendComponent where
  pW0 : Port
  pW1 : Port
  length : ℚ
deriving DecidableEq, Repr

/-- Port lookup on the two-port bend, mirroring `component.ports[name]`. -/
def BendComponent.getPort (b : BendComponent) (n : String) : Option Port :=
  if b.pW0.name = n then some b.pW0
  else if b.pW1.name = n then some b.pW1
  else none

/-- A placed reference to a bend component: the component plus the rigid
transform (rotation in degrees, then translation) of the placement.
Mirrors `ComponentReference` as used by `get_routes_bend180`. -/
structure Reference where
  bend : BendComponent
  rotation : ℚ
  translation : ℚ × ℚ
deriving DecidableEq, Repr

/-- The placed image of one of the referenced component's ports, with the
orientation normalized modulo 360 as in `_transform_port`. -/
def Reference.placePort (ref : Reference) (p : Port) : Port :=
  { p with
    x := (rotPt ref.rotation p.midpoint + ref.translation).1
    y := (rotPt ref.rotation p.midpoint + ref.translation).2
    orientation := qmod (p.orientation + ref.rotation) 360 }

/-- Look up a placed port of a reference by name, mirroring
`ref.ports[name]` (`none` models Python's `KeyError`). -/
def Reference.portNamed (ref : Reference) (n : String) : Option Port :=
  (ref.bend.getPort n).map ref.placePort

/-- A fresh reference at the identity transform, mirroring `bend.ref()`. -/
def BendComponent.mkRef (b : BendComponent) : Reference := ⟨b, 0, (0, 0)⟩

/-- Modelled from the spec (4.3): `ref.connect(port_name, destination)` moves
the reference so that its named port sits at the destination port's position
with antiparallel orientation.  The implementation
(`gdsfactory/component_reference.py`) is outside the provided sources;
`none` models the `KeyError` on a missing port name. -/
def Reference.connect (ref : Reference) (n : String) (dst : Port) : Option Reference :=
  (ref.bend.getPort n).map (fun src =>
    let placed := ref.placePort src
    let rot := ref.rotation + (dst.orientation + 180 - placed.orientation)
    { bend := ref.bend
      rotation := rot
      translation := dst.midpoint - rotPt rot src.midpoint })

/-- Sequencing of an option-valued map over a list: the embedding of a Python
loop whose body may raise. -/
def optMap {α β : Type} (f : α → Option β) : List α → Option (List β)
  | [] => some []
  | a :: l =>
    match f a, optMap f l with
    | some b, some bs => some (b :: bs)
    | _, _ => none

/-- The `Routes` record returned by `get_routes_bend180`
(`gdsfactory/types.py`): placed references, the synthetic-index port mapping
(in insertion order) and the parallel path lengths. -/
structure Routes where
  references : List Reference
  ports : List (String × Port)
  lengths : List ℚ
deriving DecidableEq, Repr

/-- The `ports` argument of `get_routes_bend180`: a list of ports or a
name-to-port mapping (kept in insertion order). -/
inductive PortsInput where
  | ofList (l : List Port)
  | ofDict (d : List (String × Port))
deriving DecidableEq, Repr

/-- The `list(ports.values()) if isinstance(ports, dict) else ports`
conversion at the head of `get_routes_bend180`. -/
def PortsInput.toList : PortsInput → List Port
  | .ofList l => l
  | .ofDict d => d.map Prod.snd

/-- Shallow embedding of `get_routes_bend180`
(`gdsfactory/routing/get_routes_bend180.py`): build the 180-degree bend once,
make one reference per input port, connect each reference's "W0" port to the
corresponding input port, collect each reference's placed "W1" port under the
enumeration index, and replicate the bend's fixed length.  `α` stands for the
opaque `cross_section`-and-kwargs data forwarded to the bend factory;
`none` models an uncaught `KeyError` for a bend lacking a "W0"/"W1" port. -/
def get_routes_bend180 {α : Type} (portsIn : PortsInput)
    (bend_factory : ℚ → α → BendComponent) (args : α) : Option Routes :=
  let ports := portsIn.toList
  let bend := bend_factory 180 args
  let refs0 := ports.map (fun _ => bend.mkRef)
  match optMap (fun pr : Port × Reference => pr.2.connect "W0" pr.1) (ports.zip refs0) with
  | none => none
  | some references =>
    match optMap (fun ir : ℕ × Reference =>
        (ir.2.portNamed "W1").map (fun p => (toString ir.1, p))) references.enum with
    | none => none
    | some outPorts =>
      some { references := references
             ports := outPorts
             lengths := List.replicate outPorts.length bend.length }

end Routing

section ComponentModel

/-- A polygon: an ordered point sequence on a layer, as in the data model. -/
structure Polygon where
  points : List (ℚ × ℚ)
  layer : GLayer
deriving DecidableEq, Repr

/-- A rigid placement transform of a child reference: optional mirror (about
the x axis), then rotation in degrees, then translation. -/
structure Transform where
  mirror : Bool
  rotation : ℚ
  translation : ℚ × ℚ
deriving DecidableEq, Repr

/-- Apply a rigid transform to a point. -/
def Transform.apply (t : Transform) (p : ℚ × ℚ) : ℚ × ℚ :=
  rotPt t.rotation (if t.mirror then (p.1, -p.2) else p) + t.translation

/-- Apply a rigid transform to a polygon, pointwise. -/
def Polygon.transform (t : Transform) (pg : Polygon) : Polygon :=
  { pg with points := pg.points.map t.apply }

/-- Modelled from the spec (3, Component): a child component, already flat,
as held by a reference.  The Component class itself (`pp/component.py` /
`gdsfactory/component.py`) is outside the provided sources. -/
structure FlatComponent where
  polygons : List Polygon
deriving DecidableEq, Repr

/-- A child reference: a shared child component plus its placement. -/
structure CRef where
  child : FlatComponent
  transform : Transform
deriving DecidableEq, Repr

/-- A component holding its own polygons plus placed child references. -/
structure PComponent where
  own : List Polygon
  refs : List CRef
deriving DecidableEq, Repr

/-- The polygons a reference contributes when rendered at its transform. -/
def CRef.render (r : CRef) : List Polygon :=
  r.child.polygons.map (Polygon.transform r.transform)

/-- The flattened polygon view of a component: its own polygons followed by
every reference rendered at its transform. -/
def PComponent.render (c : PComponent) : List Polygon :=
  c.own ++ c.refs.flatMap CRef.render

/-- Modelled from the spec (3, Component invariant): `absorb` bakes the
`i`-th reference's transformed polygons into the parent's own storage and
drops the reference; out-of-range indices (a reference not belonging to the
component, an error case in the source) leave the component unchanged. -/
def PComponent.absorb (c : PComponent) (i : ℕ) : PComponent :=
  match c.refs[i]? with
  | none => c
  | some r => { own := c.own ++ r.render, refs := c.refs.eraseIdx i }

end ComponentModel

section FactoryCache

/-- A cache key: factory name plus the normalized named-parameter values,
as used by the `cell` decorator's global cache (`pp/cell.py` /
`gdsfactory/cell.py`, outside the provided sources). -/
abbrev CacheKey := String × List (String × ℚ)

/-- Modelled from the spec (3, Component lifecycle; 5): the process-wide
factory result cache.  Component instances are identified by the counter
value at which they were built, so identical ids mean the identical cached
instance. -/
structure Cache where
  nextId : ℕ
  entries : List (CacheKey × ℕ)
deriving DecidableEq, Repr

/-- Key lookup in the cache. -/
def Cache.lookup (s : Cache) (k : CacheKey) : Option ℕ :=
  (s.entries.find? (fun p => decide (p.1 = k))).map Prod.snd

/-- Modelled from the spec: one call through the caching layer — return the
cached instance when the key is present, otherwise build a fresh instance
(a fresh id) and record it. -/
def cellCall (k : CacheKey) (s : Cache) : ℕ × Cache :=
  match s.lookup k with
  | some id => (id, s)
  | none => (s.nextId, ⟨s.nextId + 1, (k, s.nextId) :: s.entries⟩)

/-- Well-formedness of a cache state: every cached id was built before the
current counter, and no two entries share an instance id. -/
def Cache.WF (s : Cache) : Prop :=
  (∀ p ∈ s.entries, p.2 < s.nextId) ∧ (s.entries.map Prod.snd).Nodup

end FactoryCache

section Primitives

/-- A component as built by the small factories in the sources: polygons plus
a port list (the name-to-Port mapping in insertion order). -/
structure GComp where
  polygons : List Polygon
  ports : List Port
  childPlacements : List (String × (ℚ × ℚ))
deriving DecidableEq, Repr

/-- Port lookup by name on a built component. -/
def GComp.findPort (c : GComp) (n : String) : Option Port :=
  c.ports.find? (fun p => decide (p.name = n))

/-- Twice the signed (shoelace) area of a point sequence read as a closed
polygon. -/
def signedArea2 (pts : List (ℚ × ℚ)) : ℚ :=
  ((pts.zip (pts.drop 1 ++ pts.take 1)).map
    (fun pq => pq.1.1 * pq.2.2 - pq.2.1 * pq.1.2)).sum

/-- Shallow embedding of `triangle` (`gdsfactory/components/triangle.py`):
one polygon `[[0,0],[x,0],[xtop,y],[0,y]]` on the given layer, no ports, and
no parameter validation of any kind. -/
def triangle (x xtop y : ℚ) (layer : GLayer) : GComp :=
  { polygons := [⟨[(0, 0), (x, 0), (xtop, y), (0, y)], layer⟩]
    ports := []
    childPlacements := [] }

end Primitives

/-- The error taxonomy of the spec (7) plus the Python-level error kinds the
sources can actually raise (`assert` failures, sequence index errors). -/
inductive GError where
  | assertionError (msg : String)
  | invalidParameterError (msg : String)
  | misalignedPortError (msg : String)
  | routingInfeasibleError
  | indexError (msg : String)
deriving DecidableEq, Repr

section StraightHeater

/-- Modelled from the spec: the vertex list of `line(p0, p1, width)` from
`pp/components/extension.py` (outside the provided sources), a straight metal
strip between two points; no settled claim observes its exact vertices. -/
def linePts (p q : ℚ × ℚ) (w : ℚ) : List (ℚ × ℚ) :=
  [p, q, q + (0, w), p + (0, w)]

/-- Modelled from the spec (3, Port): construction of a port as performed by
the absent `add_port`/`Port` constructor (`pp/component.py`, `pp/port.py`,
outside the provided sources) — per the data-model invariant "orientation is
always normalized to [0, 360). Width > 0", the orientation argument is
normalized modulo 360 and a non-positive width is rejected (the upstream
constructor raises for an invalid width). -/
def mkPort (name : String) (x y orientation width : ℚ) (layer : GLayer)
    (port_type : String) : Except GError Port :=
  if width ≤ 0 then .error (.invalidParameterError "width must be > 0")
  else .ok ⟨name, x, y, qmod orientation 360, width, layer, port_type⟩

/-- Shallow embedding of `straight_heater_connector`
(`pp/components/straight_heater.py`).  The three `assert` statements become
`assertionError` results; the body is unrolled for the two (asserted) heater
ports: the two via-stack (`tlm`) references are recorded as child placements,
the top-metal strip is the `line` polygon, and the single exposed port "0" —
built through the spec-modelled `mkPort` constructor — sits at the mean of
the two via positions shifted by half the edge metal width, with the
explicit `port_orientation` override as its orientation argument when given
and the heater angle otherwise.  `tlm_layers[-1]` on an empty layer list is
Python's `IndexError`. -/
def straight_heater_connector (heater_ports : List Port) (tlm_layers : List GLayer)
    (port_width : ℚ) (port_orientation : Option ℚ) : Except GError GComp :=
  match heater_ports with
  | [hp0, hp1] =>
    if hp0.orientation = hp1.orientation then
      let angle := qmod hp0.orientation 360
      if angle = 0 ∨ angle = 180 then
        let dx : ℚ := 0
        let dy : ℚ := 0
        let hw := hp0.width
        let sp0 := if hp1.y < hp0.y then hp1 else hp0
        let sp1 := if hp1.y < hp0.y then hp0 else hp1
        let dp0 := if angle = 0 then (-dx, -dy) else (dx, -dy)
        let dp1 := if angle = 0 then (-dx, dy) else (dx, dy)
        let t0 := sp0.midpoint + dp0
        let t1 := sp1.midpoint + dp1
        let ss : ℚ := if angle = 0 then 1 else -1
        let edge_metal_piece_width : ℚ := 7
        let xo := ss * edge_metal_piece_width / 2
        match tlm_layers.getLast? with
        | none => .error (.indexError "tlm_layers")
        | some top_metal_layer =>
          match mkPort "0"
              ((t0.1 + t1.1) / 2 + ss * edge_metal_piece_width / 2)
              ((t0.2 + t1.2) / 2)
              (match port_orientation with
               | some o => o
               | none => angle)
              port_width top_metal_layer "dc" with
          | .error e => .error e
          | .ok p0 =>
            .ok { polygons :=
                    [⟨linePts (t0 + (xo, -hw / 2)) (t1 + (xo, hw / 2))
                        edge_metal_piece_width, top_metal_layer⟩]
                  ports := [p0]
                  childPlacements := [("tlm", t0), ("tlm", t1)] }
      else .error (.assertionError "angle should be 0 or 180")
    else .error (.assertionError "both ports should be facing in the same direction")
  | _ => .error (.assertionError "len(heater_ports) == 2")

/-- The assertion-enforced precondition of `straight_heater_connector`:
exactly two heater ports, equal orientations, common orientation 0 or 180
modulo 360. -/
def SHCpre (heater_ports : List Port) : Bool :=
  match heater_ports with
  | [hp0, hp1] =>
    decide (hp0.orientation = hp1.orientation) &&
      (decide (qmod hp0.orientation 360 = 0) || decide (qmod hp0.orientation 360 = 180))
  | _ => false

/-- The orientations of the ports of a connector result (empty on error);
the observable for the port-orientation claims. -/
def shcPortOrientations (r : Except GError GComp) : List ℚ :=
  match r with
  | .ok c => c.ports.map Port.orientation
  | .error _ => []

/-- The widths of the ports of a connector result (empty on error). -/
def shcPortWidths (r : Except GError GComp) : List ℚ :=
  match r with
  | .ok c => c.ports.map Port.width
  | .error _ => []

end StraightHeater

section Manhattan

/-- A manhattan route: rectilinear waypoints plus scalar path length. -/
structure MRoute where
  waypoints : List (ℚ × ℚ)
  length : ℚ
deriving DecidableEq, Repr

/-- Modelled from the spec (4.4): feasibility of a rectilinear route between
a pair of facing ports — the configuration of the edge case the spec pins
down.  The direct path exists when the ports are antiparallel (first facing
east, second facing west, modulo 360) and either collinear with nonnegative
separation, or laterally offset by at least `2 * radius` with at least
`2 * radius` of longitudinal separation for the two 90-degree bends. -/
def manhattanFeasible (p1 p2 : Port) (radius : ℚ) : Bool :=
  decide (qmod p1.orientation 360 = 0) && decide (qmod p2.orientation 360 = 180) &&
    (if p1.y = p2.y then decide (p1.x ≤ p2.x)
     else decide (2 * radius ≤ |p2.y - p1.y|) && decide (2 * radius ≤ p2.x - p1.x))

/-- Modelled from the spec (4.4, 9): the manhattan router's contract for a
facing port pair.  The implementation (`pp/routing/manhattan.py`) is outside
the provided sources — `src/fixme/route_sbend.py` records the no-fit case as
a known upstream gap — so the spec's defined failure semantics are taken:
an infeasible configuration fails with `routingInfeasibleError` and commits
no geometry, a feasible one yields the rectilinear waypoint path. -/
def route_manhattan (p1 p2 : Port) (radius : ℚ) : Except GError MRoute :=
  if manhattanFeasible p1 p2 radius then
    if p1.y = p2.y then .ok ⟨[p1.midpoint, p2.midpoint], p2.x - p1.x⟩
    else
      let mx := (p1.x + p2.x) / 2
      .ok ⟨[p1.midpoint, (mx, p1.y), (mx, p2.y), p2.midpoint],
           (p2.x - p1.x) + |p2.y - p1.y|⟩
  else .error .routingInfeasibleError

/-- A waypoint list is rectilinear when every consecutive segment is
axis-aligned. -/
def Rectilinear (l : List (ℚ × ℚ)) : Prop :=
  List.Chain' (fun p q => p.1 = q.1 ∨ p.2 = q.2) l

end Manhattan

section Coupler90

/-- A waveguide cross-section record; `x.info["width"]` in the source is the
`width` field here. -/
structure CrossSection where
  width : ℚ
  radius : ℚ
deriving DecidableEq, Repr

/-- Modelled from the spec: the `strip` cross-section factory
(`gdsfactory/cross_section.py`, outside the provided sources) with its
default 0.5 width and the radius passed through. -/
def strip (radius : ℚ) : CrossSection := ⟨1 / 2, radius⟩

/-- A 90-degree bend as consumed by `coupler90`: its "W0" and "N0" ports and
its polygons. -/
structure Bend90 where
  pW0 : Port
  pN0 : Port
  polygons : List Polygon
deriving DecidableEq, Repr

/-- Modelled from the spec (4.2): a 90-degree bend of the cross-section's
radius — input port "W0" at the arc start `(0, 0)` facing west, output port
"N0" at the arc end `(radius, radius)` facing north, orientations equal to
the local tangent directions.  The exact Euler-arc outline
(`gdsfactory/components/bend_euler.py`, outside the provided sources) is
irrational; its arc-floorplan corner quad stands in for it, which no settled
claim observes. -/
def bend_euler (x : CrossSection) : Bend90 :=
  { pW0 := ⟨"W0", 0, 0, 180, x.width, (1, 0), "optical"⟩
    pN0 := ⟨"N0", x.radius, x.radius, 90, x.width, (1, 0), "optical"⟩
    polygons := [⟨[(0, -x.width / 2), (x.radius, -x.width / 2),
                   (x.radius, x.radius), (0, x.radius)], (1, 0)⟩] }

/-- A straight waveguide as consumed by `coupler90`: its "W0" and "E0" ports
and its rectangle. -/
structure StraightComp where
  pW0 : Port
  pE0 : Port
  polygons : List Polygon
deriving DecidableEq, Repr

/-- Modelled from the spec (4.2): the `straight` factory
(`gdsfactory/components/straight.py`, outside the provided sources) — a
rectangle of the given length, input port "W0" at the west end facing west,
output port "E0" at the east end facing east. -/
def straight (x : CrossSection) (length : ℚ) : StraightComp :=
  { pW0 := ⟨"W0", 0, 0, 180, x.width, (1, 0), "optical"⟩
    pE0 := ⟨"E0", length, 0, 0, x.width, (1, 0), "optical"⟩
    polygons := [⟨[(0, -x.width / 2), (length, -x.width / 2),
                   (length, x.width / 2), (0, x.width / 2)], (1, 0)⟩] }

/-- Translate a polygon vertically, the effect of `movey` on geometry. -/
def Polygon.movey (d : ℚ) (pg : Polygon) : Polygon :=
  { pg with points := pg.points.map (fun p => (p.1, p.2 + d)) }

/-- Translate a port vertically, the effect of `movey` on a port. -/
def Port.moveyP (d : ℚ) (p : Port) : Port := { p with y := p.y + d }

/-- Shallow embedding of `coupler90` (`gdsfactory/components/coupler90.py`):
build the 90-degree bend from the cross-section, build a straight whose
length is the x-distance between the bend's "N0" and "W0" ports, shift the
bend up by its "W0" y-coordinate plus the gap plus the cross-section width,
absorb both children (their polygons are baked in, straight first as in the
source's absorb order), and expose the four ports "E0", "N0", "W0", "W1". -/
def coupler90 (gap radius : ℚ) : GComp :=
  let x := strip radius
  let bend90 := bend_euler x
  let sl := bend90.pN0.x - bend90.pW0.x
  let wg := straight x sl
  let width := x.width
  let d := bend90.pW0.y + gap + width
  { polygons := wg.polygons ++ bend90.polygons.map (Polygon.movey d)
    ports := [{ wg.pE0 with name := "E0" },
              { bend90.pN0.moveyP d with name := "N0" },
              { wg.pW0 with name := "W0" },
              { bend90.pW0.moveyP d with name := "W1" }]
    childPlacements := [] }

end Coupler90

section Fixtures

/-- Two pad ports 150 apart, as in the source's `test_get_routes_bend180`
(`pad_array(pitch=150)`). -/
def portAEx : Port := ⟨"S0", 0, 0, 90, 10, (1, 0), "dc"⟩

/-- Second pad port of the 150-pitch pair. -/
def portBEx : Port := ⟨"S1", 150, 0, 90, 10, (1, 0), "dc"⟩

/-- The two pad ports as an ordered list input. -/
def inputPortsEx : PortsInput := .ofList [portAEx, portBEx]

/-- The two pad ports as a name-to-port mapping in insertion order. -/
def inputDictEx : PortsInput := .ofDict [("S0", portAEx), ("S1", portBEx)]

/-- A concrete 180-degree bend of radius 75/2 = 37.5 (the source test's
`radius=75/2`): "W1" sits `2 * radius` above "W0" along the turning axis. -/
def bendEx : BendComponent :=
  ⟨⟨"W0", 0, 0, 180, 1 / 2, (1, 0), "optical"⟩,
   ⟨"W1", 0, 75, 180, 1 / 2, (1, 0), "optical"⟩, 100⟩

/-- A bend factory returning `bendEx` for any angle and settings. -/
def bend_factoryEx : ℚ → Unit → BendComponent := fun _ _ => bendEx

/-- A one-polygon child component for the absorb example. -/
def flatEx : FlatComponent := ⟨[⟨[(0, 0), (1, 0), (1, 1), (0, 1)], (1, 0)⟩]⟩

/-- A parent component holding one polygon of its own plus one placed
reference to `flatEx` (rotated 90 degrees, translated by (2,3)). -/
def pcompEx : PComponent :=
  ⟨[⟨[(5, 5), (6, 5), (6, 6)], (2, 0)⟩], [⟨flatEx, ⟨false, 90, (2, 3)⟩⟩]⟩

/-- An empty factory cache. -/
def emptyCache : Cache := ⟨0, []⟩

/-- The bottom heater port of a `straight_heater`, facing east. -/
def heaterBotEx : Port := ⟨"HBE0", 0, -1, 0, 2, (1, 0), "heater"⟩

/-- The top heater port of a `straight_heater`, facing east. -/
def heaterTopEx : Port := ⟨"HTE0", 0, 1, 0, 2, (1, 0), "heater"⟩

/-- The default via-stack layer list of `straight_heater_connector`. -/
def tlmLayersEx : List GLayer := [(40, 0), (41, 0), (42, 0), (43, 0), (44, 0), (45, 0)]

end Fixtures

/-! ## Helper lemmas -/

theorem qmod_add_int_mul (a : ℚ) (j : ℤ) : qmod (a + 360 * j) 360 = qmod a 360 := by
  unfold qmod
  have h : (a + 360 * j) / 360 = a / 360 + j := by
    field_simp
    ring
  rw [h, Int.floor_add_int]
  push_cast
  ring

theorem qmod_nonneg_lt (a : ℚ) : 0 ≤ qmod a 360 ∧ qmod a 360 < 360 := by
  unfold qmod
  have h1 : (⌊a / 360⌋ : ℚ) ≤ a / 360 := Int.floor_le _
  have h2 : a / 360 < ⌊a / 360⌋ + 1 := Int.lt_floor_add_one _
  constructor <;> nlinarith

theorem qmod_eq_add (a : ℚ) : ∃ j : ℤ, qmod a 360 = a + 360 * j :=
  ⟨-⌊a / 360⌋, by unfold qmod; push_cast; ring⟩

theorem optMap_isSome_spec {α β : Type} (f : α → Option β) :
    ∀ l : List α, (∀ a ∈ l, (f a).isSome) →
      ∃ out, optMap f l = some out ∧ List.Forall₂ (fun a b => f a = some b) l out
  | [], _ => ⟨[], rfl, List.Forall₂.nil⟩
  | a :: l, h => by
    obtain ⟨b, hb⟩ := Option.isSome_iff_exists.mp (h a (List.mem_cons_self a l))
    obtain ⟨out, hout, hfa⟩ :=
      optMap_isSome_spec f l (fun x hx => h x (List.mem_cons_of_mem a hx))
    exact ⟨b :: out, by simp [optMap, hb, hout], List.Forall₂.cons hb hfa⟩

theorem connect_midpoint {bend : BendComponent} {dst : Port} {ref : Reference}
    (hget : bend.getPort "W0" = some bend.pW0)
    (h : (bend.mkRef).connect "W0" dst = some ref) :
    (ref.placePort bend.pW0).midpoint = dst.midpoint := by
  simp only [Reference.connect, BendComponent.mkRef, hget, Option.map_some',
    Option.some.injEq] at h
  rw [← h]
  simp only [Reference.placePort, Port.midpoint, rotPt, Prod.ext_iff,
    Prod.fst_add, Prod.snd_add, Prod.fst_sub, Prod.snd_sub]
  constructor <;> ring

theorem connect_antiparallel {bend : BendComponent} {dst : Port} {ref : Reference}
    (hget : bend.getPort "W0" = some bend.pW0)
    (h : (bend.mkRef).connect "W0" dst = some ref) :
    Antiparallel (ref.placePort bend.pW0).orientation dst.orientation := by
  simp only [Reference.connect, BendComponent.mkRef, hget, Option.map_some',
    Option.some.injEq] at h
  rw [← h]
  simp only [Reference.placePort]
  obtain ⟨j, hj⟩ := qmod_eq_add (bend.pW0.orientation + 0)
  have harg : bend.pW0.orientation +
      (0 + (dst.orientation + 180 - qmod (bend.pW0.orientation + 0) 360)) =
      (dst.orientation + 180) + 360 * ((-j : ℤ) : ℚ) := by
    rw [hj]
    push_cast
    ring
  rw [harg, qmod_add_int_mul]
  obtain ⟨m, hm⟩ := qmod_eq_add (dst.orientation + 180)
  exact ⟨m, by rw [hm]; ring⟩

theorem grb_spec {α : Type} (portsIn : PortsInput) (f : ℚ → α → BendComponent) (args : α)
    (hW0 : (f 180 args).pW0.name = "W0") (hW1 : (f 180 args).pW1.name = "W1") :
    ∃ r, get_routes_bend180 portsIn f args = some r
      ∧ r.references.length = portsIn.toList.length
      ∧ r.ports.length = portsIn.toList.length
      ∧ r.ports.map Prod.fst = (List.range portsIn.toList.length).map toString
      ∧ r.lengths = List.replicate portsIn.toList.length (f 180 args).length
      ∧ ∀ i, (hi : i < portsIn.toList.length) →
          ∃ ref, r.references[i]? = some ref
            ∧ ref.bend = f 180 args
            ∧ (ref.placePort (f 180 args).pW0).midpoint = portsIn.toList[i].midpoint
            ∧ Antiparallel (ref.placePort (f 180 args).pW0).orientation
                portsIn.toList[i].orientation
            ∧ r.ports[i]? = some (toString i, ref.placePort (f 180 args).pW1) := by
  set ports := portsIn.toList with hports
  set bend := f 180 args with hbend
  have hgetW0 : bend.getPort "W0" = some bend.pW0 := by
    simp [BendComponent.getPort, hW0]
  have hgetW1 : bend.getPort "W1" = some bend.pW1 := by
    simp [BendComponent.getPort, hW0, hW1]
  have hz : ∀ pr ∈ ports.zip (ports.map fun _ => bend.mkRef), pr.2 = bend.mkRef := by
    intro pr hpr
    obtain ⟨i, hi, hget⟩ := List.getElem_of_mem hpr
    rw [List.getElem_zip] at hget
    rw [← hget]
    simp
  have hconn : ∀ pr ∈ ports.zip (ports.map fun _ => bend.mkRef),
      ((pr.2).connect "W0" pr.1).isSome := by
    intro pr hpr
    rw [hz pr hpr]
    simp [Reference.connect, hgetW0, BendComponent.mkRef]
  obtain ⟨references, hsome1, hfa1⟩ := optMap_isSome_spec _ _ hconn
  have hzlen : (ports.zip (ports.map fun _ => bend.mkRef)).length = ports.length := by
    simp
  have hlen1 : references.length = ports.length := by
    rw [← hfa1.length_eq, hzlen]
  have hfa1' := List.forall₂_iff_get.mp hfa1
  have hrefs : ∀ i (h1 : i < ports.length) (h2 : i < references.length),
      (bend.mkRef).connect "W0" ports[i] = some references[i] := by
    intro i h1 h2
    have h2' := hfa1'.2 i (by omega) (by omega)
    simpa [List.get_eq_getElem, List.getElem_zip, List.getElem_map] using h2'
  have hbendi : ∀ k (hk : k < references.length), references[k].bend = bend := by
    intro k hk
    have h3 := hrefs k (by omega) hk
    simp [Reference.connect, hgetW0, BendComponent.mkRef] at h3
    rw [← h3]
  have hW1i : ∀ ir ∈ references.enum,
      ((ir.2.portNamed "W1").map (fun p => (toString ir.1, p))).isSome := by
    intro ir hir
    obtain ⟨k, hk, hget⟩ := List.getElem_of_mem hir
    rw [List.getElem_enum] at hget
    have hk' : k < references.length := by simpa using hk
    rw [← hget]
    simp only [Reference.portNamed, hbendi k hk', hgetW1]
    simp
  obtain ⟨outPorts, hsome2, hfa2⟩ := optMap_isSome_spec _ _ hW1i
  have hlen2 : outPorts.length = references.length := by
    rw [← hfa2.length_eq]
    simp
  have hfa2' := List.forall₂_iff_get.mp hfa2
  have houts : ∀ i (h1 : i < references.length) (h2 : i < outPorts.length),
      outPorts[i] = (toString i, (references[i]).placePort bend.pW1) := by
    intro i h1 h2
    have h4 := hfa2'.2 i (by simp; omega) (by omega)
    simp only [List.get_eq_getElem, List.getElem_enum, Reference.portNamed,
      hbendi i h1, hgetW1, Option.map_some', Option.some.injEq] at h4
    exact h4.symm
  refine ⟨⟨references, outPorts, List.replicate outPorts.length bend.length⟩, ?_, by
      simpa using hlen1, by simp; omega, ?_, by simp; rw [hlen2, hlen1], ?_⟩
  · unfold get_routes_bend180
    simp only [hsome1, hsome2]
  · refine List.ext_getElem (by simp; omega) ?_
    intro i hi1 hi2
    simp only [List.getElem_map, List.getElem_range]
    rw [houts i (by simp at hi1; omega) (by simp at hi1; omega)]
  · intro i hi
    have hi1 : i < references.length := by omega
    have h3 := hrefs i hi hi1
    refine ⟨references[i], by simp [List.getElem?_eq_getElem], hbendi i hi1,
      connect_midpoint hgetW0 h3, connect_antiparallel hgetW0 h3, ?_⟩
    have hop : outPorts[i]? = some outPorts[i] := by
      rw [List.getElem?_eq_getElem]
    rw [hop, houts i hi1 (by omega)]

/-! ## Claim theorems -/

/-- C1: for every non-empty ordered collection of input ports,
`get_routes_bend180` builds its 180-degree bend via `bend_factory 180 ...`,
places one bend reference per input port, connects each reference's "W0" port
to the corresponding input port (coincident midpoint, antiparallel
orientation), and collects each reference's placed free "W1" port under the
synthetic enumeration index; the returned `Routes` holds exactly one placed
bend reference, one output port, and one path length per input port. -/
theorem get_routes_bend180_one_bend_per_port {α : Type} (portsIn : PortsInput)
    (bend_factory : ℚ → α → BendComponent) (args : α)
    (hne : portsIn.toList ≠ [])
    (hW0 : (bend_factory 180 args).pW0.name = "W0")
    (hW1 : (bend_factory 180 args).pW1.name = "W1") :
    ∃ r, get_routes_bend180 portsIn bend_factory args = some r
      ∧ r.references.length = portsIn.toList.length
      ∧ r.ports.length = portsIn.toList.length
      ∧ r.lengths.length = portsIn.toList.length
      ∧ ∀ i, (hi : i < portsIn.toList.length) →
          ∃ ref, r.references[i]? = some ref
            ∧ ref.bend = bend_factory 180 args
            ∧ (ref.placePort (bend_factory 180 args).pW0).midpoint
                = portsIn.toList[i].midpoint
            ∧ Antiparallel (ref.placePort (bend_factory 180 args).pW0).orientation
                portsIn.toList[i].orientation
            ∧ r.ports[i]? = some (toString i, ref.placePort (bend_factory 180 args).pW1) := by
  obtain ⟨r, h1, h2, h3, _, h5, h6⟩ := grb_spec portsIn bend_factory args hW0 hW1
  exact ⟨r, h1, h2, h3, by rw [h5, List.length_replicate], h6⟩

/-- Witness for C1 at the source test's configuration: two pad ports 150
apart and a radius-37.5 bend factory. -/
theorem get_routes_bend180_one_bend_per_port_witness :
    inputPortsEx.toList ≠ []
    ∧ (bend_factoryEx 180 ()).pW0.name = "W0"
    ∧ (bend_factoryEx 180 ()).pW1.name = "W1"
    ∧ ∃ r, get_routes_bend180 inputPortsEx bend_factoryEx () = some r
        ∧ r.references.length = inputPortsEx.toList.length
        ∧ r.ports.length = inputPortsEx.toList.length
        ∧ r.lengths.length = inputPortsEx.toList.length
        ∧ ∀ i, (hi : i < inputPortsEx.toList.length) →
            ∃ ref, r.references[i]? = some ref
              ∧ ref.bend = bend_factoryEx 180 ()
              ∧ (ref.placePort (bend_factoryEx 180 ()).pW0).midpoint
                  = inputPortsEx.toList[i].midpoint
              ∧ Antiparallel (ref.placePort (bend_factoryEx 180 ()).pW0).orientation
                  inputPortsEx.toList[i].orientation
              ∧ r.ports[i]? = some (toString i, ref.placePort (bend_factoryEx 180 ()).pW1) :=
  ⟨by simp [inputPortsEx, PortsInput.toList], rfl, rfl,
    get_routes_bend180_one_bend_per_port inputPortsEx bend_factoryEx ()
      (by simp [inputPortsEx, PortsInput.toList]) rfl rfl⟩

/-- C2: every path length in the returned `Routes` equals the bend
component's fixed length — a value of the bend alone, fixed before any port
is touched — so all entries are equal to each other, and two calls over port
collections of the same size (any spacing) yield identical length lists. -/
theorem get_routes_bend180_fixed_lengths {α : Type} (portsIn portsIn' : PortsInput)
    (bend_factory : ℚ → α → BendComponent) (args : α)
    (hW0 : (bend_factory 180 args).pW0.name = "W0")
    (hW1 : (bend_factory 180 args).pW1.name = "W1") :
    ∃ r r', get_routes_bend180 portsIn bend_factory args = some r
      ∧ get_routes_bend180 portsIn' bend_factory args = some r'
      ∧ r.lengths = List.replicate portsIn.toList.length (bend_factory 180 args).length
      ∧ (∀ l ∈ r.lengths, l = (bend_factory 180 args).length)
      ∧ (∀ l1 ∈ r.lengths, ∀ l2 ∈ r.lengths, l1 = l2)
      ∧ (portsIn.toList.length = portsIn'.toList.length → r.lengths = r'.lengths) := by
  obtain ⟨r, h1, _, _, _, h5, _⟩ := grb_spec portsIn bend_factory args hW0 hW1
  obtain ⟨r', h1', _, _, _, h5', _⟩ := grb_spec portsIn' bend_factory args hW0 hW1
  refine ⟨r, r', h1, h1', h5, ?_, ?_, ?_⟩
  · intro l hl
    rw [h5] at hl
    exact List.eq_of_mem_replicate hl
  · intro l1 hl1 l2 hl2
    rw [h5] at hl1 hl2
    rw [List.eq_of_mem_replicate hl1, List.eq_of_mem_replicate hl2]
  · intro hlen
    rw [h5, h5', hlen]

/-- Witness for C2: the 150-apart pad pair against a pair spaced
differently (the dict input's two ports), same sizes. -/
theorem get_routes_bend180_fixed_lengths_witness :
    (bend_factoryEx 180 ()).pW0.name = "W0"
    ∧ (bend_factoryEx 180 ()).pW1.name = "W1"
    ∧ ∃ r r', get_routes_bend180 inputPortsEx bend_factoryEx () = some r
        ∧ get_routes_bend180 inputDictEx bend_factoryEx () = some r'
        ∧ r.lengths = List.replicate inputPortsEx.toList.length (bend_factoryEx 180 ()).length
        ∧ (∀ l ∈ r.lengths, l = (bend_factoryEx 180 ()).length)
        ∧ (∀ l1 ∈ r.lengths, ∀ l2 ∈ r.lengths, l1 = l2)
        ∧ (inputPortsEx.toList.length = inputDictEx.toList.length → r.lengths = r'.lengths) :=
  ⟨rfl, rfl, get_routes_bend180_fixed_lengths inputPortsEx inputDictEx bend_factoryEx () rfl rfl⟩

/-- C3: `get_routes_bend180` is deterministic and order-preserving — two
calls over inputs with the same ordered port list (a list, or a name-to-port
mapping taken in insertion order) and the same bend factory return identical
results, and the output-port mapping assigns the synthetic indices
"0".."n-1" in enumeration order of the input ports, with the path-length
list fixed alongside. -/
theorem get_routes_bend180_deterministic {α : Type} (p1 p2 : PortsInput)
    (bend_factory : ℚ → α → BendComponent) (args : α)
    (heq : p1.toList = p2.toList)
    (hW0 : (bend_factory 180 args).pW0.name = "W0")
    (hW1 : (bend_factory 180 args).pW1.name = "W1") :
    get_routes_bend180 p1 bend_factory args = get_routes_bend180 p2 bend_factory args
    ∧ ∃ r, get_routes_bend180 p1 bend_factory args = some r
        ∧ r.ports.map Prod.fst = (List.range p1.toList.length).map toString
        ∧ r.lengths = List.replicate p1.toList.length (bend_factory 180 args).length := by
  constructor
  · unfold get_routes_bend180
    rw [heq]
  · obtain ⟨r, h1, _, _, h4, h5, _⟩ := grb_spec p1 bend_factory args hW0 hW1
    exact ⟨r, h1, h4, h5⟩

/-- Witness for C3: the ordered pad list against the name-to-port mapping
with the same ports in insertion order. -/
theorem get_routes_bend180_deterministic_witness :
    inputDictEx.toList = inputPortsEx.toList
    ∧ (bend_factoryEx 180 ()).pW0.name = "W0"
    ∧ (bend_factoryEx 180 ()).pW1.name = "W1"
    ∧ (get_routes_bend180 inputDictEx bend_factoryEx ()
        = get_routes_bend180 inputPortsEx bend_factoryEx ()
      ∧ ∃ r, get_routes_bend180 inputDictEx bend_factoryEx () = some r
          ∧ r.ports.map Prod.fst = (List.range inputDictEx.toList.length).map toString
          ∧ r.lengths = List.replicate inputDictEx.toList.length (bend_factoryEx 180 ()).length) :=
  ⟨rfl, rfl, rfl,
    get_routes_bend180_deterministic inputDictEx inputPortsEx bend_factoryEx () rfl rfl rfl⟩

/-- C4: absorbing (flattening) a child reference is geometry-preserving —
for every component holding a reference at some transform, the polygon
multiset rendered after `absorb` equals the polygon multiset of the
unabsorbed component rendering that reference at the same transform
(exactly equal here, the exact-arithmetic strengthening of equality up to
floating-point tolerance). -/
theorem absorb_geometry_preserving (c : PComponent) (i : ℕ) (hi : i < c.refs.length) :
    ((c.absorb i).render : Multiset Polygon) = (c.render : Multiset Polygon) := by
  rw [Multiset.coe_eq_coe]
  unfold PComponent.absorb
  rw [List.getElem?_eq_getElem hi]
  unfold PComponent.render
  simp only
  rw [List.eraseIdx_eq_take_drop_succ, List.flatMap_append, List.append_assoc]
  conv_rhs => rw [show c.refs = c.refs.take i ++ c.refs[i] :: c.refs.drop (i + 1) by
    rw [← List.drop_eq_getElem_cons hi, List.take_append_drop]]
  rw [List.flatMap_append, List.flatMap_cons]
  exact List.Perm.append_left c.own (List.perm_append_comm_assoc _ _ _)

/-- Witness for C4: a parent with one own polygon and one rotated,
translated child reference. -/
theorem absorb_geometry_preserving_witness :
    0 < pcompEx.refs.length
    ∧ ((pcompEx.absorb 0).render : Multiset Polygon) = (pcompEx.render : Multiset Polygon) :=
  ⟨by simp [pcompEx], absorb_geometry_preserving pcompEx 0 (by simp [pcompEx])⟩

/-- C5: factory memoization — for a well-formed cache, calling the caching
layer twice with the same key returns the identical cached instance, and a
call with any differing key returns a distinct instance. -/
theorem cellCall_memoization (s : Cache) (k k1 k2 : CacheKey)
    (hWF : s.WF) (hne : k1 ≠ k2) :
    (cellCall k (cellCall k s).2).1 = (cellCall k s).1
    ∧ (cellCall k2 (cellCall k1 s).2).1 ≠ (cellCall k1 s).1 := by
  have mem_of_lookup : ∀ (k' : CacheKey) (id : ℕ), s.lookup k' = some id →
      ∃ p, p ∈ s.entries ∧ p.1 = k' ∧ p.2 = id := by
    intro k' id hl
    unfold Cache.lookup at hl
    obtain ⟨p, hfind, hsnd⟩ := Option.map_eq_some'.mp hl
    refine ⟨p, List.mem_of_find?_eq_some hfind, ?_, hsnd⟩
    have := List.find?_some hfind
    exact of_decide_eq_true this
  constructor
  · cases h : s.lookup k with
    | some id => simp [cellCall, h]
    | none =>
      simp only [cellCall, h]
      have : Cache.lookup ⟨s.nextId + 1, (k, s.nextId) :: s.entries⟩ k = some s.nextId := by
        unfold Cache.lookup
        rw [List.find?_cons_of_pos _ (by simp)]
        rfl
      simp [this]
  · cases h1 : s.lookup k1 with
    | some id1 =>
      obtain ⟨p, hp, hpk, hpid⟩ := mem_of_lookup k1 id1 h1
      cases h2 : s.lookup k2 with
      | some id2 =>
        obtain ⟨q, hq, hqk, hqid⟩ := mem_of_lookup k2 id2 h2
        simp only [cellCall, h1, h2]
        intro heq
        apply hne
        rw [← hpk, ← hqk]
        have hpq : p = q := List.inj_on_of_nodup_map hWF.2 hp hq (by rw [hpid, hqid, heq])
        rw [hpq]
      | none =>
        simp only [cellCall, h1, h2]
        have : id1 < s.nextId := hpid ▸ hWF.1 p hp
        omega
    | none =>
      have hlk2 : Cache.lookup ⟨s.nextId + 1, (k1, s.nextId) :: s.entries⟩ k2
          = s.lookup k2 := by
        unfold Cache.lookup
        rw [List.find?_cons_of_neg _ (by simp [hne])]
      cases h2 : s.lookup k2 with
      | some id2 =>
        obtain ⟨q, hq, hqk, hqid⟩ := mem_of_lookup k2 id2 h2
        simp only [cellCall, h1, hlk2, h2]
        have : id2 < s.nextId := hqid ▸ hWF.1 q hq
        omega
      | none =>
        simp only [cellCall, h1, hlk2, h2]
        omega

/-- Witness for C5: the empty cache with two `triangle` keys differing in
one parameter value. -/
theorem cellCall_memoization_witness :
    emptyCache.WF
    ∧ (("triangle", [("x", (10 : ℚ))]) : CacheKey) ≠ ("triangle", [("x", (11 : ℚ))])
    ∧ ((cellCall ("triangle", [("x", 10)]) (cellCall ("triangle", [("x", 10)]) emptyCache).2).1
        = (cellCall ("triangle", [("x", 10)]) emptyCache).1
      ∧ (cellCall ("triangle", [("x", 11)]) (cellCall ("triangle", [("x", 10)]) emptyCache).2).1
        ≠ (cellCall ("triangle", [("x", 10)]) emptyCache).1) :=
  ⟨⟨by simp [emptyCache], by simp [emptyCache]⟩, by norm_num [Prod.ext_iff],
    cellCall_memoization emptyCache ("triangle", [("x", 10)]) ("triangle", [("x", 10)])
      ("triangle", [("x", 11)]) ⟨by simp [emptyCache], by simp [emptyCache]⟩
      (by norm_num [Prod.ext_iff])⟩

/-- C6 counterexample: `triangle` raises no error on negative parameters —
the call with `xtop = -10` (a negative size parameter) returns normally and
its single polygon has zero signed area, refuting both the
`InvalidParameterError` failure and the no-silent-degenerate-geometry parts
of the claim. -/
theorem triangle_negative_param_silent_zero_area :
    ((-10 : ℚ) < 0)
    ∧ ((triangle 10 (-10) 20 (1, 0)).polygons.map (fun pg => signedArea2 pg.points) = [0]) := by
  constructor
  · norm_num
  · norm_num [triangle, signedArea2]

/-- C6 as amended: `triangle` performs no physical-parameter validation —
every call, with negative parameters included, returns normally with exactly
one four-point polygon and no ports, and the polygon's doubled signed area is
`y * (x + xtop)`, which is zero (degenerate) for suitable negative inputs. -/
theorem triangle_no_validation (x xtop y : ℚ) (layer : GLayer) :
    (triangle x xtop y layer).polygons.length = 1
    ∧ (triangle x xtop y layer).polygons.map (fun pg => signedArea2 pg.points)
        = [y * (x + xtop)]
    ∧ (triangle x xtop y layer).ports = [] := by
  refine ⟨rfl, ?_, rfl⟩
  simp [triangle, signedArea2]
  ring

/-- C7: when no rectilinear path satisfies the constraints — the lateral
offset demands a bend radius tighter than the minimum, or the facing ports
lack the separation any rectilinear path needs — the (spec-modelled)
manhattan router fails with `routingInfeasibleError` and returns no route at
all, committing no partial layout. -/
theorem route_manhattan_infeasible_fails (p1 p2 : Port) (radius : ℚ)
    (hinf : manhattanFeasible p1 p2 radius = false) :
    route_manhattan p1 p2 radius = Except.error GError.routingInfeasibleError
    ∧ ∀ rt : MRoute, route_manhattan p1 p2 radius ≠ Except.ok rt := by
  have herr : route_manhattan p1 p2 radius = .error .routingInfeasibleError := by
    unfold route_manhattan
    rw [hinf]
    simp
  exact ⟨herr, fun rt hok => by rw [herr] at hok; exact Except.noConfusion hok⟩

/-- Witness for C7 at the configuration of `src/fixme/route_sbend.py`: two
straights whose facing ports are offset laterally by 4 with radius 5 — the
rectilinear route would need lateral room `2 * 5 = 10 > 4`. -/
theorem route_manhattan_infeasible_fails_witness :
    manhattanFeasible ⟨"E0", 10, 0, 0, 1 / 2, (1, 0), "optical"⟩
        ⟨"W0", 14, 4, 180, 1 / 2, (1, 0), "optical"⟩ 5 = false
    ∧ route_manhattan ⟨"E0", 10, 0, 0, 1 / 2, (1, 0), "optical"⟩
        ⟨"W0", 14, 4, 180, 1 / 2, (1, 0), "optical"⟩ 5
        = Except.error GError.routingInfeasibleError := by
  have h : manhattanFeasible ⟨"E0", 10, 0, 0, 1 / 2, (1, 0), "optical"⟩
      ⟨"W0", 14, 4, 180, 1 / 2, (1, 0), "optical"⟩ 5 = false := by
    norm_num [manhattanFeasible, qmod]
  exact ⟨h, (route_manhattan_infeasible_fails _ _ _ h).1⟩

/-- C8: port invariant — every port of every component built by
`straight_heater_connector`, the port re-exposed by the parent under the
caller-facing name "0" included, has its orientation normalized into
`[0, 360)` and a strictly positive width, for every input (explicit
`port_orientation` overrides included, which the spec-modelled port
constructor normalizes; non-positive widths never construct a port). -/
theorem shc_port_invariant (hp : List Port) (tl : List GLayer) (pw : ℚ) (po : Option ℚ) :
    (∀ q ∈ shcPortOrientations (straight_heater_connector hp tl pw po),
      0 ≤ q ∧ q < 360)
    ∧ (∀ w ∈ shcPortWidths (straight_heater_connector hp tl pw po), 0 < w) := by
  constructor
  · intro q hq
    rcases hp with _ | ⟨hp0, _ | ⟨hp1, _ | ⟨a, hp⟩⟩⟩
    · simp [straight_heater_connector, shcPortOrientations] at hq
    · simp [straight_heater_connector, shcPortOrientations] at hq
    case cons.cons.cons =>
      simp [straight_heater_connector, shcPortOrientations] at hq
    simp only [straight_heater_connector, shcPortOrientations] at hq
    split at hq
    case h_2 => simp at hq
    case h_1 c heq =>
      split at heq
      case isFalse => exact absurd heq (by simp)
      case isTrue hho =>
        split at heq
        case isFalse => exact absurd heq (by simp)
        case isTrue hangle =>
          split at heq
          case h_1 => exact absurd heq (by simp)
          case h_2 lay htl =>
            split at heq
            case h_1 e hmk => exact absurd heq (by simp)
            case h_2 p0 hmk =>
              simp only [Except.ok.injEq] at heq
              subst heq
              simp only [mkPort] at hmk
              split at hmk
              case isTrue => exact absurd hmk (by simp)
              case isFalse hpw =>
                simp only [Except.ok.injEq] at hmk
                subst hmk
                simp at hq
                rw [hq]
                exact qmod_nonneg_lt _
  · intro w hw
    rcases hp with _ | ⟨hp0, _ | ⟨hp1, _ | ⟨a, hp⟩⟩⟩
    · simp [straight_heater_connector, shcPortWidths] at hw
    · simp [straight_heater_connector, shcPortWidths] at hw
    case cons.cons.cons =>
      simp [straight_heater_connector, shcPortWidths] at hw
    simp only [straight_heater_connector, shcPortWidths] at hw
    split at hw
    case h_2 => simp at hw
    case h_1 c heq =>
      split at heq
      case isFalse => exact absurd heq (by simp)
      case isTrue hho =>
        split at heq
        case isFalse => exact absurd heq (by simp)
        case isTrue hangle =>
          split at heq
          case h_1 => exact absurd heq (by simp)
          case h_2 lay htl =>
            split at heq
            case h_1 e hmk => exact absurd heq (by simp)
            case h_2 p0 hmk =>
              simp only [Except.ok.injEq] at heq
              subst heq
              simp only [mkPort] at hmk
              split at hmk
              case isTrue => exact absurd hmk (by simp)
              case isFalse hpw =>
                simp only [Except.ok.injEq] at hmk
                subst hmk
                simp at hw
                rw [hw]
                exact lt_of_not_le hpw

/-- Witness for C8 at the default heater pair with the default width 10 and
no orientation override: the exposed port has orientation 0 ∈ [0, 360) and
width 10 > 0. -/
theorem shc_port_invariant_witness :
    ((0 : ℚ) ≤ 0 ∧ (0 : ℚ) < 360) ∧ (0 : ℚ) < 10 :=
  ⟨(shc_port_invariant [heaterBotEx, heaterTopEx] tlmLayersEx 10 none).1 0
      (by norm_num [shcPortOrientations, straight_heater_connector, mkPort, qmod,
        Port.midpoint, heaterBotEx, heaterTopEx, tlmLayersEx]),
    (shc_port_invariant [heaterBotEx, heaterTopEx] tlmLayersEx 10 none).2 10
      (by norm_num [shcPortWidths, straight_heater_connector, mkPort, qmod,
        Port.midpoint, heaterBotEx, heaterTopEx, tlmLayersEx])⟩

/-- C9: `coupler90` exposes exactly the four ports "E0", "N0", "W0", "W1"
(straight east/west, bend north, bend west), the straight's span (its "E0"
to "W0" x-distance) equals the x-distance between the bend's "N0" and "W0"
port midpoints, and the bend's ports sit shifted upward by
`gap + cross-section width` relative to their unplaced positions over the
straight. -/
theorem coupler90_ports_and_geometry (gap radius : ℚ) :
    (coupler90 gap radius).ports.map Port.name = ["E0", "N0", "W0", "W1"]
    ∧ (∃ e0 w0, (coupler90 gap radius).findPort "E0" = some e0
        ∧ (coupler90 gap radius).findPort "W0" = some w0
        ∧ e0.x - w0.x
            = (bend_euler (strip radius)).pN0.x - (bend_euler (strip radius)).pW0.x)
    ∧ (∃ w1, (coupler90 gap radius).findPort "W1" = some w1
        ∧ w1.x = (bend_euler (strip radius)).pW0.x
        ∧ w1.y = (bend_euler (strip radius)).pW0.y + gap + (strip radius).width)
    ∧ (∃ n0, (coupler90 gap radius).findPort "N0" = some n0
        ∧ n0.x = (bend_euler (strip radius)).pN0.x
        ∧ n0.y = (bend_euler (strip radius)).pN0.y + gap + (strip radius).width) := by
  refine ⟨?_, ?_, ?_, ?_⟩
  · simp [coupler90, bend_euler, strip, straight, Port.moveyP]
  · refine ⟨⟨"E0", radius, 0, 0, 1 / 2, (1, 0), "optical"⟩,
      ⟨"W0", 0, 0, 180, 1 / 2, (1, 0), "optical"⟩, ?_, ?_, ?_⟩ <;>
      · norm_num [coupler90, GComp.findPort, bend_euler, strip, straight, Port.moveyP]
        try decide
        try ring
  · refine ⟨⟨"W1", 0, gap + 1 / 2, 180, 1 / 2, (1, 0), "optical"⟩, ?_, ?_, ?_⟩ <;>
      · norm_num [coupler90, GComp.findPort, bend_euler, strip, straight, Port.moveyP]
        try exact ⟨by decide, by decide, Or.inr (by decide)⟩
        try decide
        try ring
  · refine ⟨⟨"N0", radius, radius + (gap + 1 / 2), 90, 1 / 2, (1, 0), "optical"⟩, ?_, ?_, ?_⟩ <;>
      · norm_num [coupler90, GComp.findPort, bend_euler, strip, straight, Port.moveyP]
        try exact ⟨by decide, by decide, Or.inr (by decide)⟩
        try decide
        try ring

/-- C10: `straight_heater_connector`'s assertion-enforced precondition —
exactly two heater ports, equal orientations, common orientation 0 or 180
modulo 360 — characterizes assertion failure: every input violating it fails
with an `assertionError` (not a `misalignedPortError`), and under it no
assertion in the function fails. -/
theorem shc_assertion_precondition (hp : List Port) (tl : List GLayer)
    (pw : ℚ) (po : Option ℚ) :
    SHCpre hp = true ↔
      ∀ msg, straight_heater_connector hp tl pw po
        ≠ Except.error (GError.assertionError msg) := by
  rcases hp with _ | ⟨hp0, _ | ⟨hp1, _ | ⟨a, hp⟩⟩⟩
  · simp [straight_heater_connector, SHCpre]
  · simp [straight_heater_connector, SHCpre]
  case cons.cons.cons =>
    simp [straight_heater_connector, SHCpre]
  by_cases ho : hp0.orientation = hp1.orientation
  · by_cases ha : qmod hp0.orientation 360 = 0 ∨ qmod hp0.orientation 360 = 180
    · rcases ha with h0 | h0 <;>
      · have h0' : qmod hp1.orientation 360 = 0 ∨ qmod hp1.orientation 360 = 180 := by
          rw [← ho]
          simp [h0]
        have hpre : SHCpre [hp0, hp1] = true := by
          simp [SHCpre, ho]
          rw [← ho]
          simp [h0]
        rw [hpre]
        simp only [true_iff]
        intro msg h
        simp [straight_heater_connector, ho, h0, h0'] at h
        cases htl : tl.getLast? with
        | none =>
          rw [htl] at h
          simp at h
        | some lay =>
          rw [htl] at h
          rcases le_or_lt pw 0 with hpw | hpw
          · simp [mkPort, hpw] at h
          · simp [mkPort, not_le.mpr hpw] at h
    · refine iff_of_false (by simp [SHCpre, ho]; rw [← ho]; exact not_or.mp ha) ?_
      intro hall
      have ha' : ¬(qmod hp1.orientation 360 = 0 ∨ qmod hp1.orientation 360 = 180) := by
        rw [← ho]
        exact ha
      exact hall "angle should be 0 or 180"
        (by simp [straight_heater_connector, ho, not_or.mp ha'])
  · refine iff_of_false (by simp [SHCpre, ho]) ?_
    intro hall
    exact hall "both ports should be facing in the same direction"
      (by simp [straight_heater_connector, ho])

/-- Witness for C10: the default heater-port pair (two ports, equal east
orientations) satisfies the precondition, via the theorem's backward
direction applied to the computed non-assertion result. -/
theorem shc_assertion_precondition_witness :
    SHCpre [heaterBotEx, heaterTopEx] = true :=
  (shc_assertion_precondition [heaterBotEx, heaterTopEx] tlmLayersEx 10 none).mpr
    (fun msg h => by
      norm_num [straight_heater_connector, qmod, Port.midpoint,
        heaterBotEx, heaterTopEx, tlmLayersEx] at h
      exact Except.noConfusion h)
